import Mathlib

set_option maxHeartbeats 1000000
set_option maxRecDepth 8000

/-!
Shallow embedding of the local certificate manager CLI (src/index.ts).

The tool manages a local development certificate authority and registers
leaf certificates for local domains in a traefik TLS configuration file.
Pure string manipulation is translated directly; the effectful parts
(directory listings, file reads and writes, shell commands, prompts,
process exits) are made explicit: a function receives the relevant state
(directory listing, config file content) and returns a record of the exit
code together with the observable effects it performs.
-/

namespace LCM

/-- An entry of the certificates sequence of the proxy TLS config file,
mirroring the element type of TlsConfig.tls.certificates in src/index.ts. -/
structure CertEntry where
  certFile : String
  keyFile : String
deriving DecidableEq

/-- The parsed shape of the proxy TLS config document, {tls: {certificates: [...]}}
in src/index.ts, flattened to its single meaningful field. -/
structure TlsConfig where
  certificates : List CertEntry
deriving DecidableEq

/-- ROOT-CA certificate file name (the ROOT_CA.certificate constant). -/
def rootCertificateName : String := "root.pem"

/-- ROOT-CA key file name (the ROOT_CA.key constant). -/
def rootKeyName : String := "root.key"

/-- The supported platform list checked at the top of start in src/index.ts. -/
def supportedPlatforms : List String := ["darwin", "linux", "win32"]

/-- getCertificateSubject from src/index.ts: the openssl subject template,
with common name Root CA when no domain is supplied. -/
def getCertificateSubject (domain : Option String) : String :=
  "/C=FR/ST=azerty/L=azerty/O=azerty/OU=azerty/CN=" ++ domain.getD "Root CA"

/-- The validate callback of the domain prompt in start (src/index.ts):
the answer must be a non-empty string (a falsy empty string is rejected)
and must end with the suffix .test.  true models acceptance; false models
returning an error message, which makes the prompt ask again. -/
def validateDomain (answer : String) : Bool :=
  if answer = "" then false
  else if ¬ (".test".data.isSuffixOf answer.data) then false
  else true

/-- The re-prompt loop of prompt.ask with the validate callback: given the
successive answers typed by the operator, the first accepted answer is
delivered; none models an interaction that never completes because no
answer is ever accepted. -/
def askLoop : List String → Option String
  | [] => none
  | a :: rest => if validateDomain a then some a else askLoop rest

/-- One per-platform entry of the platformVariants table in
createCertificateAuthority. -/
structure PlatformVariant where
  keyCmd : String
  certCmd : String
  doc : String
deriving DecidableEq

/-- The platformVariants table of createCertificateAuthority in src/index.ts. -/
def platformVariants (osName : String) : Option PlatformVariant :=
  if osName = "win32" then
    some { keyCmd := "winpty openssl genrsa -des3 -out root.key 2048"
         , certCmd := "winpty openssl req -x509 -new -nodes -key root.key -sha256 -days 1825 -out root.pem -subj \"" ++ getCertificateSubject none ++ "\""
         , doc := "https://deliciousbrains.com/ssl-certificate-authority-for-local-https-development/#adding-root-cert-macos-keychain" }
  else if osName = "darwin" then
    some { keyCmd := "openssl genrsa -des3 -out root.key 2048"
         , certCmd := "openssl req -x509 -new -nodes -key root.key -sha256 -days 1825 -out root.pem -subj \"" ++ getCertificateSubject none ++ "\""
         , doc := "https://deliciousbrains.com/ssl-certificate-authority-for-local-https-development/#adding-root-cert-macos-keychain" }
  else if osName = "linux" then
    some { keyCmd := "openssl genrsa -des3 -out root.key 2048"
         , certCmd := "openssl req -x509 -new -nodes -key root.key -sha256 -days 1825 -out root.pem -subj \"" ++ getCertificateSubject none ++ "\""
         , doc := "https://deliciousbrains.com/ssl-certificate-authority-for-local-https-development/#adding-root-cert-linux-keychain" }
  else none

/-- The shell.ls filter shared by createCertificateAuthority and
verifyRootCertificates in src/index.ts: keeps the store directory entries
named root.pem or root.key.  A directory listing contains each name once. -/
def rootFilesFilter (files : List String) : List String :=
  files.filter (fun file => file == rootCertificateName || file == rootKeyName)

/-- The observable outcome of createCertificateAuthority: the process exit
code and the shell commands executed in the certificate store directory. -/
structure CAOutcome where
  exitCode : Nat
  cmdsRun : List String
deriving DecidableEq

/-- createCertificateAuthority from src/index.ts: when both root files are
listed in the store directory it logs and exits 0 without running any
command; otherwise it runs the platform key generation command and then
the platform certificate generation command (the none branch models the
runtime error of the non-null assertion on an unknown platform, which the
start gate makes unreachable). -/
def createCertificateAuthority (osName : String) (files : List String) : CAOutcome :=
  if (rootFilesFilter files).length = 2 then
    { exitCode := 0, cmdsRun := [] }
  else
    match platformVariants osName with
    | some v => { exitCode := 0, cmdsRun := [v.keyCmd, v.certCmd] }
    | none => { exitCode := 1, cmdsRun := [] }

/-- The RootCertificateDefinition record of src/index.ts. -/
structure RootCertificateDefinition where
  certificate : String
  key : String
deriving DecidableEq

/-- verifyRootCertificates from src/index.ts: re-lists the store directory;
when the two root files are not both present it exits the process with
code 1 (modelled by none); otherwise it folds the filtered listing into a
RootCertificateDefinition and returns it. -/
def verifyRootCertificates (files : List String) : Option RootCertificateDefinition :=
  let alreadyExists := rootFilesFilter files
  if alreadyExists.length ≠ 2 then none
  else
    some (alreadyExists.foldl
      (fun acc file =>
        if file = rootCertificateName then { acc with certificate := file }
        else { acc with key := file })
      { certificate := "", key := "" })

/-- createExtensionString from src/index.ts: the SAN extension file body
written for a domain (the template literal, with its embedded newlines
spelled out). -/
def createExtensionString (domain : String) : String :=
  "authorityKeyIdentifier=keyid,issuer\nbasicConstraints=CA:FALSE\nkeyUsage = digitalSignature, nonRepudiation, keyEncipherment, dataEncipherment\nsubjectAltName = @alt_names\n\n[alt_names]\nDNS.1 = " ++ domain ++ "\nDNS.2 = *." ++ domain ++ "\n"

/-- An observable side effect in the certificate store directory: an
external command executed through shell.exec, or a file written with
writeFileSync. -/
inductive Effect where
  | execCmd (cmd : String)
  | writeFile (path : String) (content : String)
deriving DecidableEq

/-- generateCertificate from src/index.ts: the ordered side effects of leaf
certificate issuance for a domain (key generation, signing request,
extension file, signed certificate). -/
def generateCertificate (domainName : String) : List Effect :=
  [ .execCmd ("openssl genrsa -out " ++ domainName ++ ".key 2048")
  , .execCmd ("openssl req -new -key " ++ domainName ++ ".key -out " ++ domainName ++ ".csr -subj \"" ++ getCertificateSubject (some domainName) ++ "\"")
  , .writeFile (domainName ++ ".ext") (createExtensionString domainName)
  , .execCmd ("openssl x509 -req -in " ++ domainName ++ ".csr -CA root.pem -CAkey root.key -CAcreateserial -out " ++ domainName ++ ".crt -days 825 -sha256 -extfile " ++ domainName ++ ".ext")
  ]

/-- The character class of the conflict check regular expression of
addNewCertificate: ASCII letters, hyphen, underscore and dot. -/
def domainChar (c : Char) : Bool :=
  decide ( 'a' ≤ c ∧ c ≤ 'z') || decide ( 'A' ≤ c ∧ c ≤ 'Z') ||
  c == '-' || c == '_' || c == '.'

/-- The conflict check pattern of addNewCertificate in src/index.ts.  The
regular expression is anchored at both ends with a fixed directory part,
one capture group of class characters, and a fixed .crt tail, so a path
matches exactly when it is the directory part, then a non-empty middle of
class characters, then .crt, and the captured domain is that middle. -/
def extractDomain (certFile : String) : Option String :=
  let cs := certFile.data
  let dir := "/etc/ssl/traefik/".data
  if dir.isPrefixOf cs then
    let rest := cs.drop dir.length
    if ".crt".data.isSuffixOf rest then
      let mid := rest.take (rest.length - 4)
      if mid.isEmpty then none
      else if mid.all domainChar then some (String.mk mid) else none
    else none
  else none

/-- The body of the find callback of addNewCertificate: the entry certFile
matches the path pattern and its captured domain equals the requested one. -/
def certMatches (domainName : String) (cert : CertEntry) : Bool :=
  match extractDomain cert.certFile with
  | some domain => domain == domainName
  | none => false

/-- Serialization of one certificates entry as the yaml library emits it
(block sequence indented below the certificates key, two-space steps). -/
def stringifyEntry (e : CertEntry) : String :=
  "    - certFile: " ++ e.certFile ++ "\n      keyFile: " ++ e.keyFile ++ "\n"

/-- stringify from the yaml dependency, modelled on TlsConfig documents:
the canonical text the tool writes back (flow empty sequence for no
certificates, block sequence otherwise, trailing newline). -/
def stringify (cfg : TlsConfig) : String :=
  if cfg.certificates.isEmpty then "tls:\n  certificates: []\n"
  else "tls:\n  certificates:\n" ++ String.join (cfg.certificates.map stringifyEntry)

/-- Splits a character list at newline characters, the way a text file is
read as lines; the separators are dropped and the result is never empty. -/
def splitLines : List Char → List (List Char)
  | [] => [[]]
  | c :: cs =>
    if c = '\n' then [] :: splitLines cs
    else
      match splitLines cs with
      | [] => [c] :: []
      | l :: ls => (c :: l) :: ls

/-- The lines of a string. -/
def linesOf (s : String) : List String :=
  (splitLines s.data).map String.mk

/-- Parses the lines of the block certificates sequence: pairs of a
certFile line and a keyFile line at the canonical indentation. -/
def parseEntryLines : List String → Option (List CertEntry)
  | [] => some []
  | certLine :: keyLine :: rest =>
    if "    - certFile: ".data.isPrefixOf certLine.data
        && "      keyFile: ".data.isPrefixOf keyLine.data then
      match parseEntryLines rest with
      | some entries =>
          some ({ certFile := String.mk (certLine.data.drop 16)
                , keyFile := String.mk (keyLine.data.drop 15) } :: entries)
      | none => none
    else none
  | _ :: [] => none

/-- parse from the yaml dependency followed by the tls.certificates field
accesses of addNewCertificate, modelled on the canonical documents this
tool itself writes: none models every outcome that aborts
addNewCertificate with an unhandled exception (unreadable file, text that
does not parse, or a document without the tls certificates sequence). -/
def parse (text : String) : Option TlsConfig :=
  match linesOf text with
  | ["tls:", "  certificates: []", ""] => some { certificates := [] }
  | "tls:" :: "  certificates:" :: rest =>
    if rest.getLast? == some "" then
      match parseEntryLines rest.dropLast with
      | some entries => if entries.isEmpty then none else some { certificates := entries }
      | none => none
    else none
  | _ => none

/-- The state addNewCertificate interacts with: the listing of the
certificate store directory and the content of the config file (none when
the file is absent or unreadable). -/
structure SysState where
  certsDirFiles : List String
  configFile : Option String
deriving DecidableEq

/-- The observable outcome of addNewCertificate: the process exit code, the
ordered effects performed in the store directory, the document passed to
stringify when the config is rewritten, and the final config file content. -/
structure AddOutcome where
  exitCode : Nat
  storeEffects : List Effect
  writtenConfig : Option TlsConfig
  configFileAfter : Option String
deriving DecidableEq

/-- addNewCertificate from src/index.ts.  It verifies the root certificates
first (exit 1 when they are missing), then reads and parses the config
file (an unhandled exception, hence exit code 1 and nothing further, when
the file is missing or not of the expected shape), then looks for a
conflicting entry (exit 1, nothing executed, nothing written); otherwise
it issues the leaf certificate, appends the new entry and rewrites the
whole config file. -/
def addNewCertificate (st : SysState) (domainName : String) : AddOutcome :=
  match verifyRootCertificates st.certsDirFiles with
  | none =>
    { exitCode := 1, storeEffects := [], writtenConfig := none
    , configFileAfter := st.configFile }
  | some _ =>
    match st.configFile with
    | none =>
      { exitCode := 1, storeEffects := [], writtenConfig := none
      , configFileAfter := st.configFile }
    | some text =>
      match parse text with
      | none =>
        { exitCode := 1, storeEffects := [], writtenConfig := none
        , configFileAfter := st.configFile }
      | some parsedFile =>
        match parsedFile.certificates.find? (certMatches domainName) with
        | some _ =>
          { exitCode := 1, storeEffects := [], writtenConfig := none
          , configFileAfter := st.configFile }
        | none =>
          let newConfig : TlsConfig :=
            { certificates := parsedFile.certificates ++
                [ { certFile := "/etc/ssl/traefik/" ++ domainName ++ ".crt"
                  , keyFile := "/etc/ssl/traefik/" ++ domainName ++ ".key" } ] }
          { exitCode := 0
          , storeEffects := generateCertificate domainName
          , writtenConfig := some newConfig
          , configFileAfter := some (stringify newConfig) }

/-- The two entries of the action choice prompt in start. -/
inductive Action where
  | root_ca
  | site_cert
deriving DecidableEq

/-- The observable outcome of one run of the tool: exit code, effects in
the store directory, the document written to the config file when it is
rewritten, and the final config file content. -/
structure StartOutcome where
  exitCode : Nat
  storeEffects : List Effect
  writtenConfig : Option TlsConfig
  configFileAfter : Option String
deriving DecidableEq

/-- start from src/index.ts: the platform gate runs before either flow;
the root-ca action delegates to createCertificateAuthority and the
site-cert action prompts for a domain (re-asking until the validation
accepts) and delegates to addNewCertificate.  none models an interaction
that never completes because no prompt answer is ever accepted. -/
def start (osName : String) (action : Action) (answers : List String)
    (st : SysState) : Option StartOutcome :=
  if osName ∈ supportedPlatforms then
    match action with
    | .root_ca =>
      let r := createCertificateAuthority osName st.certsDirFiles
      some { exitCode := r.exitCode, storeEffects := r.cmdsRun.map .execCmd
           , writtenConfig := none, configFileAfter := st.configFile }
    | .site_cert =>
      match askLoop answers with
      | none => none
      | some domain =>
        let r := addNewCertificate st domain
        some { exitCode := r.exitCode, storeEffects := r.storeEffects
             , writtenConfig := r.writtenConfig, configFileAfter := r.configFileAfter }
  else
    some { exitCode := 1, storeEffects := [], writtenConfig := none
         , configFileAfter := st.configFile }

/-! ### Helper lemmas -/

/-- A duplicate-free list whose members are all one value has at most one
element. -/
theorem length_le_one_of_nodup_all_eq (l : List String) (a : String)
    (hnd : l.Nodup) (hall : ∀ x ∈ l, x = a) : l.length ≤ 1 := by
  cases l with
  | nil => simp
  | cons x t =>
    cases t with
    | nil => simp
    | cons y u =>
      exfalso
      have hx : x = a := hall x (by simp)
      have hy : y = a := hall y (by simp)
      rw [List.nodup_cons] at hnd
      exact hnd.1 (by rw [hx.trans hy.symm]; exact List.mem_cons_self y u)

/-- On a duplicate-free listing missing at least one root file name, the
root file filter cannot have length two. -/
theorem rootFilesFilter_length_ne_two (files : List String) (hnd : files.Nodup)
    (hmiss : rootCertificateName ∉ files ∨ rootKeyName ∉ files) :
    (rootFilesFilter files).length ≠ 2 := by
  have hnf : (rootFilesFilter files).Nodup := hnd.filter _
  rcases hmiss with hm | hm
  · have hall : ∀ x ∈ rootFilesFilter files, x = rootKeyName := by
      intro x hx
      rw [rootFilesFilter, List.mem_filter] at hx
      obtain ⟨hxl, hcond⟩ := hx
      rcases (by simpa using hcond : x = rootCertificateName ∨ x = rootKeyName) with h | h
      · exact absurd (h ▸ hxl) hm
      · exact h
    have := length_le_one_of_nodup_all_eq _ _ hnf hall
    omega
  · have hall : ∀ x ∈ rootFilesFilter files, x = rootCertificateName := by
      intro x hx
      rw [rootFilesFilter, List.mem_filter] at hx
      obtain ⟨hxl, hcond⟩ := hx
      rcases (by simpa using hcond : x = rootCertificateName ∨ x = rootKeyName) with h | h
      · exact h
      · exact absurd (h ▸ hxl) hm
    have := length_le_one_of_nodup_all_eq _ _ hnf hall
    omega

/-- On a duplicate-free listing holding both root file names, the root file
filter has length exactly two. -/
theorem rootFilesFilter_length_eq_two (files : List String) (hnd : files.Nodup)
    (h1 : rootCertificateName ∈ files) (h2 : rootKeyName ∈ files) :
    (rootFilesFilter files).length = 2 := by
  have hnf : (rootFilesFilter files).Nodup := hnd.filter _
  have hset : (rootFilesFilter files).toFinset
      = {rootCertificateName, rootKeyName} := by
    ext x
    simp only [List.mem_toFinset, rootFilesFilter, List.mem_filter, Bool.or_eq_true,
      beq_iff_eq, Finset.mem_insert, Finset.mem_singleton]
    constructor
    · rintro ⟨hxl, hx⟩
      exact hx
    · rintro (rfl | rfl)
      · exact ⟨h1, Or.inl rfl⟩
      · exact ⟨h2, Or.inr rfl⟩
  have hcard : (rootFilesFilter files).toFinset.card
      = (rootFilesFilter files).length := List.toFinset_card_of_nodup hnf
  rw [hset, Finset.card_pair (by decide)] at hcard
  exact hcard.symm

/-- If every answer in the list is rejected by the validation, the prompt
loop never delivers a domain. -/
theorem askLoop_eq_none (answers : List String)
    (h : ∀ a ∈ answers, validateDomain a = false) : askLoop answers = none := by
  induction answers with
  | nil => rfl
  | cons a rest ih =>
    have ha := h a (List.mem_cons_self a rest)
    rw [askLoop, ha]
    · exact ih fun x hx => h x (List.mem_cons_of_mem a hx)

/-- splitLines never returns the empty list of lines. -/
theorem splitLines_ne_nil (l : List Char) : splitLines l ≠ [] := by
  cases l with
  | nil => simp [splitLines]
  | cons c cs =>
    simp only [splitLines]
    split
    · simp
    · split <;> simp

/-- Splitting after a newline-free chunk: the chunk extends the first line
of the remainder. -/
theorem splitLines_append_of_noNL (l : List Char) (h : ∀ c ∈ l, c ≠ '\n')
    (ys : List Char) :
    splitLines (l ++ ys) = (l ++ (splitLines ys).headD []) :: (splitLines ys).tail := by
  induction l with
  | nil =>
    simp only [List.nil_append]
    cases hy : splitLines ys with
    | nil => exact absurd hy (splitLines_ne_nil ys)
    | cons m ms => simp
  | cons c cs ih =>
    have hc : c ≠ '\n' := h c (by simp)
    have hcs : ∀ x ∈ cs, x ≠ '\n' := fun x hx => h x (by simp [hx])
    simp only [List.cons_append, splitLines, if_neg hc, List.append_eq, ih hcs]

/-- Splitting a newline-free line followed by a newline separator. -/
theorem splitLines_line (l : List Char) (h : ∀ c ∈ l, c ≠ '\n')
    (rest : List Char) :
    splitLines (l ++ '\n' :: rest) = l :: splitLines rest := by
  rw [splitLines_append_of_noNL l h]
  have h2 : splitLines ('\n' :: rest) = [] :: splitLines rest := by
    simp [splitLines]
  rw [h2]
  simp

/-- Splitting at a leading newline yields an empty first line. -/
theorem splitLines_cons_newline (rest : List Char) :
    splitLines ('\n' :: rest) = [] :: splitLines rest := by
  simp [splitLines]

/-! ### Claim theorems -/

/-- C1: for every domain D already present in the proxy config (an existing
entry whose certFile yields D by extracted-domain equality against the
template path), addNewCertificate for D ends with exit code 1, performs no
issuance effect in the store directory, and leaves the config file
unchanged. -/
theorem c1_duplicate_domain_rejected (st : SysState) (D text : String)
    (parsed : TlsConfig) (hfile : st.configFile = some text)
    (hparse : parse text = some parsed)
    (hconflict : ∃ e ∈ parsed.certificates, certMatches D e = true) :
    addNewCertificate st D =
      { exitCode := 1, storeEffects := [], writtenConfig := none
      , configFileAfter := st.configFile } := by
  have hfind : (parsed.certificates.find? (certMatches D)).isSome = true :=
    List.find?_isSome.mpr hconflict
  obtain ⟨e, hf⟩ := Option.isSome_iff_exists.mp hfind
  unfold addNewCertificate
  cases hv : verifyRootCertificates st.certsDirFiles with
  | none => simp
  | some rc => simp [hfile, hparse, hf]

/-- C1 witness at a concrete conflicting state. -/
theorem c1_duplicate_domain_rejected_witness :
    (parse (stringify { certificates :=
        [{ certFile := "/etc/ssl/traefik/foo.test.crt"
         , keyFile := "/etc/ssl/traefik/foo.test.key" }] })
      = some { certificates :=
        [{ certFile := "/etc/ssl/traefik/foo.test.crt"
         , keyFile := "/etc/ssl/traefik/foo.test.key" }] }) ∧
    (∃ e ∈ ({ certificates :=
        [{ certFile := "/etc/ssl/traefik/foo.test.crt"
         , keyFile := "/etc/ssl/traefik/foo.test.key" }] } : TlsConfig).certificates,
      certMatches "foo.test" e = true) ∧
    addNewCertificate
        { certsDirFiles := ["root.pem", "root.key"]
        , configFile := some (stringify { certificates :=
            [{ certFile := "/etc/ssl/traefik/foo.test.crt"
             , keyFile := "/etc/ssl/traefik/foo.test.key" }] }) } "foo.test" =
      { exitCode := 1, storeEffects := [], writtenConfig := none
      , configFileAfter := some (stringify { certificates :=
          [{ certFile := "/etc/ssl/traefik/foo.test.crt"
           , keyFile := "/etc/ssl/traefik/foo.test.key" }] }) } :=
  ⟨by decide, by decide,
    c1_duplicate_domain_rejected
      { certsDirFiles := ["root.pem", "root.key"]
      , configFile := some (stringify { certificates :=
          [{ certFile := "/etc/ssl/traefik/foo.test.crt"
           , keyFile := "/etc/ssl/traefik/foo.test.key" }] }) }
      "foo.test"
      (stringify { certificates :=
        [{ certFile := "/etc/ssl/traefik/foo.test.crt"
         , keyFile := "/etc/ssl/traefik/foo.test.key" }] })
      { certificates :=
        [{ certFile := "/etc/ssl/traefik/foo.test.crt"
         , keyFile := "/etc/ssl/traefik/foo.test.key" }] }
      rfl (by decide) (by decide)⟩

/-- C2: registering foo.test against a parsed config with an empty
certificates sequence exits 0 and writes a config whose sole entry has the
template certFile and keyFile paths for foo.test, and parsing the
serialized rewritten config yields that same entry back. -/
theorem c2_roundtrip_foo_test :
    (addNewCertificate
        { certsDirFiles := ["root.pem", "root.key"]
        , configFile := some (stringify { certificates := [] }) } "foo.test").exitCode = 0 ∧
    (addNewCertificate
        { certsDirFiles := ["root.pem", "root.key"]
        , configFile := some (stringify { certificates := [] }) } "foo.test").writtenConfig
      = some { certificates :=
          [{ certFile := "/etc/ssl/traefik/foo.test.crt"
           , keyFile := "/etc/ssl/traefik/foo.test.key" }] } ∧
    (addNewCertificate
        { certsDirFiles := ["root.pem", "root.key"]
        , configFile := some (stringify { certificates := [] }) } "foo.test").configFileAfter
      = some (stringify { certificates :=
          [{ certFile := "/etc/ssl/traefik/foo.test.crt"
           , keyFile := "/etc/ssl/traefik/foo.test.key" }] }) ∧
    parse (stringify { certificates :=
        [{ certFile := "/etc/ssl/traefik/foo.test.crt"
         , keyFile := "/etc/ssl/traefik/foo.test.key" }] })
      = some { certificates :=
          [{ certFile := "/etc/ssl/traefik/foo.test.crt"
           , keyFile := "/etc/ssl/traefik/foo.test.key" }] } := by
  refine ⟨rfl, rfl, rfl, by decide⟩

/-- C3: on a store directory listing missing at least one of the two root
file names, addNewCertificate for any domain exits 1 without any external
command, without any store write, and with the config file untouched,
whatever the config file holds. -/
theorem c3_missing_root_aborts (files : List String) (hnd : files.Nodup)
    (hmiss : rootCertificateName ∉ files ∨ rootKeyName ∉ files)
    (cf : Option String) (D : String) :
    addNewCertificate { certsDirFiles := files, configFile := cf } D =
      { exitCode := 1, storeEffects := [], writtenConfig := none
      , configFileAfter := cf } := by
  have hlen := rootFilesFilter_length_ne_two files hnd hmiss
  unfold addNewCertificate verifyRootCertificates
  simp [hlen]

/-- C3 witness at a concrete store missing the root key. -/
theorem c3_missing_root_aborts_witness :
    (["root.pem"] : List String).Nodup ∧
    (rootCertificateName ∉ (["root.pem"] : List String)
      ∨ rootKeyName ∉ (["root.pem"] : List String)) ∧
    addNewCertificate { certsDirFiles := ["root.pem"], configFile := some "tls:" } "foo.test" =
      { exitCode := 1, storeEffects := [], writtenConfig := none
      , configFileAfter := some "tls:" } :=
  ⟨by decide, Or.inr (by decide),
    c3_missing_root_aborts ["root.pem"] (by decide) (Or.inr (by decide)) (some "tls:") "foo.test"⟩

/-- C4: authority creation is a no-op exactly when both root file names are
listed: with both present it exits 0 running no command; with either
absent it runs the platform key generation command and then the platform
certificate generation command. -/
theorem c4_authority_creation_noop_iff (osName : String) (files : List String)
    (hnd : files.Nodup) (hos : osName ∈ supportedPlatforms) :
    ((rootCertificateName ∈ files ∧ rootKeyName ∈ files) →
        createCertificateAuthority osName files = { exitCode := 0, cmdsRun := [] }) ∧
    ((rootCertificateName ∉ files ∨ rootKeyName ∉ files) →
        ∃ v, platformVariants osName = some v ∧
          createCertificateAuthority osName files
            = { exitCode := 0, cmdsRun := [v.keyCmd, v.certCmd] }) := by
  constructor
  · rintro ⟨h1, h2⟩
    have hlen : (rootFilesFilter files).length = 2 :=
      rootFilesFilter_length_eq_two files hnd h1 h2
    unfold createCertificateAuthority
    rw [if_pos hlen]
  · intro hmiss
    have hlen := rootFilesFilter_length_ne_two files hnd hmiss
    have hv : ∃ v, platformVariants osName = some v := by
      simp only [supportedPlatforms, List.mem_cons, List.not_mem_nil, or_false] at hos
      rcases hos with h | h | h
      · exact ⟨_, by rw [h]; rfl⟩
      · exact ⟨_, by rw [h]; rfl⟩
      · exact ⟨_, by rw [h]; rfl⟩
    obtain ⟨v, hveq⟩ := hv
    refine ⟨v, hveq, ?_⟩
    unfold createCertificateAuthority
    rw [if_neg hlen, hveq]

/-- C4 witness: a no-op on a complete store and a two-command creation on
an empty store, both on linux. -/
theorem c4_authority_creation_noop_iff_witness :
    (["root.pem", "root.key"] : List String).Nodup ∧
    ("linux" ∈ supportedPlatforms) ∧
    createCertificateAuthority "linux" ["root.pem", "root.key"]
      = { exitCode := 0, cmdsRun := [] } ∧
    (∃ v, platformVariants "linux" = some v ∧
      createCertificateAuthority "linux" []
        = { exitCode := 0, cmdsRun := [v.keyCmd, v.certCmd] }) :=
  ⟨by decide, by decide,
    (c4_authority_creation_noop_iff "linux" ["root.pem", "root.key"] (by decide)
      (by decide)).1 ⟨by decide, by decide⟩,
    (c4_authority_creation_noop_iff "linux" [] (by decide) (by decide)).2
      (Or.inl (by decide))⟩

/-- C8: on a platform outside the supported set, start exits 1 at once, for
every action, every answer stream and every state, performing no store
effect and leaving the config file unchanged. -/
theorem c8_unsupported_platform_exit (osName : String)
    (h : osName ∉ supportedPlatforms) (action : Action) (answers : List String)
    (st : SysState) :
    start osName action answers st =
      some { exitCode := 1, storeEffects := [], writtenConfig := none
           , configFileAfter := st.configFile } := by
  unfold start
  rw [if_neg h]

/-- C8 witness on a concrete unsupported platform. -/
theorem c8_unsupported_platform_exit_witness :
    ("freebsd" ∉ supportedPlatforms) ∧
    start "freebsd" Action.root_ca [] { certsDirFiles := [], configFile := none } =
      some { exitCode := 1, storeEffects := [], writtenConfig := none
           , configFileAfter := none } :=
  ⟨by decide,
    c8_unsupported_platform_exit "freebsd" (by decide) Action.root_ca []
      { certsDirFiles := [], configFile := none }⟩

/-- C9: the bare string .test is accepted by the domain validation (it is
non-empty and ends with .test), the prompt loop delivers it, and
registration with it proceeds to issuance against a conflict-free state. -/
theorem c9_dot_test_accepted :
    validateDomain ".test" = true ∧
    askLoop [".test"] = some ".test" ∧
    (addNewCertificate
        { certsDirFiles := ["root.pem", "root.key"]
        , configFile := some (stringify { certificates := [] }) } ".test").exitCode = 0 ∧
    (addNewCertificate
        { certsDirFiles := ["root.pem", "root.key"]
        , configFile := some (stringify { certificates := [] }) } ".test").storeEffects
      = generateCertificate ".test" ∧
    (addNewCertificate
        { certsDirFiles := ["root.pem", "root.key"]
        , configFile := some (stringify { certificates := [] }) } ".test").writtenConfig
      = some { certificates :=
          [{ certFile := "/etc/ssl/traefik/.test.crt"
           , keyFile := "/etc/ssl/traefik/.test.key" }] } := by
  refine ⟨by decide, by decide, rfl, rfl, rfl⟩

/-- C10: when the config file is absent or its content does not parse to
the expected tls certificates shape, addNewCertificate exits 1 before any
issuance step: no external command, no store write, config file unchanged. -/
theorem c10_bad_config_aborts (st : SysState) (D : String)
    (hbad : st.configFile = none ∨
      ∃ text, st.configFile = some text ∧ parse text = none) :
    addNewCertificate st D =
      { exitCode := 1, storeEffects := [], writtenConfig := none
      , configFileAfter := st.configFile } := by
  unfold addNewCertificate
  cases hv : verifyRootCertificates st.certsDirFiles with
  | none => simp
  | some rc =>
    rcases hbad with h | ⟨text, hfile, hparse⟩
    · simp [h]
    · simp [hfile, hparse]

/-- C10 witness on an unparseable config file. -/
theorem c10_bad_config_aborts_witness :
    ((some "nonsense" : Option String) = none ∨
      ∃ text, (some "nonsense" : Option String) = some text ∧ parse text = none) ∧
    addNewCertificate
        { certsDirFiles := ["root.pem", "root.key"], configFile := some "nonsense" }
        "foo.test" =
      { exitCode := 1, storeEffects := [], writtenConfig := none
      , configFileAfter := some "nonsense" } :=
  ⟨Or.inr ⟨"nonsense", rfl, by decide⟩,
    c10_bad_config_aborts
      { certsDirFiles := ["root.pem", "root.key"], configFile := some "nonsense" }
      "foo.test" (Or.inr ⟨"nonsense", rfl, by decide⟩)⟩

/-- C5: the domain validation accepts an answer exactly when it is
non-empty and ends with the suffix .test; when every typed answer is
rejected the prompt loop never delivers a domain, and the site-cert flow
of start performs nothing at all (no outcome, no effect). -/
theorem c5_domain_validation :
    (∀ answer : String, validateDomain answer = true ↔
        (answer ≠ "" ∧ ".test".data.isSuffixOf answer.data = true)) ∧
    (∀ answers : List String, (∀ a ∈ answers, validateDomain a = false) →
        askLoop answers = none) ∧
    (∀ osName : String, ∀ st : SysState, ∀ answers : List String,
        osName ∈ supportedPlatforms →
        (∀ a ∈ answers, validateDomain a = false) →
        start osName Action.site_cert answers st = none) := by
  refine ⟨?_, fun answers h => askLoop_eq_none answers h, ?_⟩
  · intro answer
    by_cases h1 : answer = ""
    · simp [validateDomain, h1]
    · by_cases h2 : ".test".data.isSuffixOf answer.data = true
      · simp [validateDomain, h1, h2]
      · simp [validateDomain, h1, h2]
  · intro osName st answers hos h
    unfold start
    rw [if_pos hos, askLoop_eq_none answers h]

/-- C5 witness: the characterization at foo.test, a rejected answer list
that yields no domain, and a silent site-cert flow on those answers. -/
theorem c5_domain_validation_witness :
    (validateDomain "foo.test" = true ↔
        ("foo.test" ≠ "" ∧ ".test".data.isSuffixOf "foo.test".data = true)) ∧
    askLoop ["foo", ""] = none ∧
    ("linux" ∈ supportedPlatforms) ∧
    start "linux" Action.site_cert ["foo", ""]
        { certsDirFiles := [], configFile := none } = none :=
  ⟨c5_domain_validation.1 "foo.test",
    c5_domain_validation.2.1 ["foo", ""] (by decide),
    by decide,
    c5_domain_validation.2.2 "linux" { certsDirFiles := [], configFile := none }
      ["foo", ""] (by decide) (by decide)⟩

/-- C6: a successful registration rewrites the config with exactly the old
certificates sequence plus one appended entry for the domain: the written
document keeps every previous entry unchanged in its original position
(its prefix of the old length is the old sequence), its length grows by
one, and its last entry is the new template entry. -/
theorem c6_append_preserves (st : SysState) (D text : String) (parsed : TlsConfig)
    (hroot : (rootFilesFilter st.certsDirFiles).length = 2)
    (hfile : st.configFile = some text) (hparse : parse text = some parsed)
    (hno : parsed.certificates.find? (certMatches D) = none) :
    (addNewCertificate st D).writtenConfig
        = some { certificates := parsed.certificates ++
            [{ certFile := "/etc/ssl/traefik/" ++ D ++ ".crt"
             , keyFile := "/etc/ssl/traefik/" ++ D ++ ".key" }] } ∧
    (addNewCertificate st D).configFileAfter
        = some (stringify { certificates := parsed.certificates ++
            [{ certFile := "/etc/ssl/traefik/" ++ D ++ ".crt"
             , keyFile := "/etc/ssl/traefik/" ++ D ++ ".key" }] }) ∧
    (parsed.certificates ++
        [({ certFile := "/etc/ssl/traefik/" ++ D ++ ".crt"
          , keyFile := "/etc/ssl/traefik/" ++ D ++ ".key" } : CertEntry)]).length
      = parsed.certificates.length + 1 ∧
    (parsed.certificates ++
        [({ certFile := "/etc/ssl/traefik/" ++ D ++ ".crt"
          , keyFile := "/etc/ssl/traefik/" ++ D ++ ".key" } : CertEntry)]).take
          parsed.certificates.length
      = parsed.certificates ∧
    (parsed.certificates ++
        [({ certFile := "/etc/ssl/traefik/" ++ D ++ ".crt"
          , keyFile := "/etc/ssl/traefik/" ++ D ++ ".key" } : CertEntry)]).getLast?
      = some ({ certFile := "/etc/ssl/traefik/" ++ D ++ ".crt"
              , keyFile := "/etc/ssl/traefik/" ++ D ++ ".key" } : CertEntry) := by
  have hv : verifyRootCertificates st.certsDirFiles
      = some ((rootFilesFilter st.certsDirFiles).foldl
          (fun acc file =>
            if file = rootCertificateName then { acc with certificate := file }
            else { acc with key := file })
          { certificate := "", key := "" }) := by
    unfold verifyRootCertificates
    rw [if_neg (by omega)]
  refine ⟨?_, ?_, by simp, List.take_left _ _, List.getLast?_concat _⟩ <;>
    simp only [addNewCertificate, hv, hfile, hparse, hno]

/-- C6 witness: registering bar.test over a config holding app.test. -/
theorem c6_append_preserves_witness :
    ((rootFilesFilter ["root.pem", "root.key"]).length = 2) ∧
    (parse (stringify { certificates :=
        [{ certFile := "/etc/ssl/traefik/app.test.crt"
         , keyFile := "/etc/ssl/traefik/app.test.key" }] })
      = some { certificates :=
        [{ certFile := "/etc/ssl/traefik/app.test.crt"
         , keyFile := "/etc/ssl/traefik/app.test.key" }] }) ∧
    (({ certificates :=
        [{ certFile := "/etc/ssl/traefik/app.test.crt"
         , keyFile := "/etc/ssl/traefik/app.test.key" }] } : TlsConfig).certificates.find?
      (certMatches "bar.test") = none) ∧
    (addNewCertificate
        { certsDirFiles := ["root.pem", "root.key"]
        , configFile := some (stringify { certificates :=
            [{ certFile := "/etc/ssl/traefik/app.test.crt"
             , keyFile := "/etc/ssl/traefik/app.test.key" }] }) } "bar.test").writtenConfig
      = some { certificates :=
          [{ certFile := "/etc/ssl/traefik/app.test.crt"
           , keyFile := "/etc/ssl/traefik/app.test.key" }] ++
          [{ certFile := "/etc/ssl/traefik/" ++ "bar.test" ++ ".crt"
           , keyFile := "/etc/ssl/traefik/" ++ "bar.test" ++ ".key" }] } :=
  ⟨by decide, by decide, by decide,
    (c6_append_preserves
      { certsDirFiles := ["root.pem", "root.key"]
      , configFile := some (stringify { certificates :=
          [{ certFile := "/etc/ssl/traefik/app.test.crt"
           , keyFile := "/etc/ssl/traefik/app.test.key" }] }) }
      "bar.test"
      (stringify { certificates :=
        [{ certFile := "/etc/ssl/traefik/app.test.crt"
         , keyFile := "/etc/ssl/traefik/app.test.key" }] })
      { certificates :=
        [{ certFile := "/etc/ssl/traefik/app.test.crt"
         , keyFile := "/etc/ssl/traefik/app.test.key" }] }
      (by decide) rfl (by decide) (by decide)).1⟩

/-- C7: for every newline-free domain D, the SAN extension file content has
the line basicConstraints=CA:FALSE, and its subject-alternative-name
entries (the lines starting with DNS.) are exactly the bare domain line
DNS.1 and the wildcard line DNS.2. -/
theorem c7_extension_san (D : String) (h : '\n' ∉ D.data) :
    "basicConstraints=CA:FALSE" ∈ linesOf (createExtensionString D) ∧
    (linesOf (createExtensionString D)).filter
        (fun l => "DNS.".data.isPrefixOf l.data)
      = ["DNS.1 = " ++ D, "DNS.2 = *." ++ D] := by
  obtain ⟨d⟩ := D
  have hd : ∀ c ∈ d, c ≠ '\n' := fun c hc he => h (he ▸ hc)
  have h0 : (createExtensionString (String.mk d)).data
      = "authorityKeyIdentifier=keyid,issuer".data ++ '\n' ::
        ("basicConstraints=CA:FALSE".data ++ '\n' ::
        ("keyUsage = digitalSignature, nonRepudiation, keyEncipherment, dataEncipherment".data ++ '\n' ::
        ("subjectAltName = @alt_names".data ++ '\n' ::
        ('\n' ::
        ("[alt_names]".data ++ '\n' ::
        ("DNS.1 = ".data ++
          (d ++ '\n' :: ("DNS.2 = *.".data ++ (d ++ ['\n']))))))))) := by
    have e1 : (createExtensionString (String.mk d)).data
        = ("authorityKeyIdentifier=keyid,issuer".data ++ '\n' ::
            ("basicConstraints=CA:FALSE".data ++ '\n' ::
            ("keyUsage = digitalSignature, nonRepudiation, keyEncipherment, dataEncipherment".data ++ '\n' ::
            ("subjectAltName = @alt_names".data ++ '\n' ::
            ('\n' ::
            ("[alt_names]".data ++ '\n' :: "DNS.1 = ".data))))))
            ++ d ++ ('\n' :: "DNS.2 = *.".data) ++ d ++ ['\n'] := rfl
    rw [e1]
    simp only [List.append_assoc, List.cons_append]
  have key : splitLines (createExtensionString (String.mk d)).data
      = [ "authorityKeyIdentifier=keyid,issuer".data
        , "basicConstraints=CA:FALSE".data
        , "keyUsage = digitalSignature, nonRepudiation, keyEncipherment, dataEncipherment".data
        , "subjectAltName = @alt_names".data
        , []
        , "[alt_names]".data
        , "DNS.1 = ".data ++ d
        , "DNS.2 = *.".data ++ d
        , [] ] := by
    rw [h0]
    rw [splitLines_line "authorityKeyIdentifier=keyid,issuer".data (by decide)]
    rw [splitLines_line "basicConstraints=CA:FALSE".data (by decide)]
    rw [splitLines_line "keyUsage = digitalSignature, nonRepudiation, keyEncipherment, dataEncipherment".data (by decide)]
    rw [splitLines_line "subjectAltName = @alt_names".data (by decide)]
    rw [splitLines_cons_newline]
    rw [splitLines_line "[alt_names]".data (by decide)]
    rw [splitLines_append_of_noNL "DNS.1 = ".data (by decide)]
    rw [splitLines_line d hd]
    rw [splitLines_append_of_noNL "DNS.2 = *.".data (by decide)]
    rw [splitLines_line d hd]
    simp [splitLines]
  have hmk : ∀ l : List Char, (String.mk l).data = l := fun _ => rfl
  have p1 : "DNS.".data.isPrefixOf "authorityKeyIdentifier=keyid,issuer".data = false := rfl
  have p2 : "DNS.".data.isPrefixOf "basicConstraints=CA:FALSE".data = false := rfl
  have p3 : "DNS.".data.isPrefixOf "keyUsage = digitalSignature, nonRepudiation, keyEncipherment, dataEncipherment".data = false := rfl
  have p4 : "DNS.".data.isPrefixOf "subjectAltName = @alt_names".data = false := rfl
  have p5 : "DNS.".data.isPrefixOf ([] : List Char) = false := rfl
  have p6 : "DNS.".data.isPrefixOf "[alt_names]".data = false := rfl
  have p7 : "DNS.".data.isPrefixOf ("DNS.1 = ".data ++ d) = true := rfl
  have p8 : "DNS.".data.isPrefixOf ("DNS.2 = *.".data ++ d) = true := rfl
  constructor
  · show "basicConstraints=CA:FALSE" ∈ (splitLines (createExtensionString (String.mk d)).data).map String.mk
    rw [key]
    exact List.Mem.tail _ (List.Mem.head _)
  · show ((splitLines (createExtensionString (String.mk d)).data).map String.mk).filter
        (fun l => "DNS.".data.isPrefixOf l.data)
      = ["DNS.1 = " ++ String.mk d, "DNS.2 = *." ++ String.mk d]
    rw [key]
    simp only [List.map_cons, List.map_nil, List.filter_cons, List.filter_nil, hmk,
      p1, p2, p3, p4, p5, p6, p7, p8, Bool.false_eq_true, if_false, if_true]
    rfl

/-- C7 witness at the concrete domain app.test. -/
theorem c7_extension_san_witness :
    ('\n' ∉ "app.test".data) ∧
    ("basicConstraints=CA:FALSE" ∈ linesOf (createExtensionString "app.test") ∧
      (linesOf (createExtensionString "app.test")).filter
          (fun l => "DNS.".data.isPrefixOf l.data)
        = ["DNS.1 = " ++ "app.test", "DNS.2 = *." ++ "app.test"]) :=
  ⟨by decide, c7_extension_san "app.test" (by decide)⟩

end LCM
